import Mathlib

/-!
Verification of the sqlmodel-tutorial data-access layer (`app.py`).

The database state is embedded shallowly: a `DB` is the committed contents of
the two tables (`hero`, `team`), a row being a structure with the declared
columns.  Each routine of `app.py` opens a session over the committed state,
works on the pending state, and only `commit` publishes pending changes; the
`with`-block discards uncommitted work on exit.  SQL `WHERE` clauses are
evaluated in three-valued logic (`SQLBool`), so comparisons against a NULL
`age` yield `null` and the row is excluded, exactly as in SQLite.

Library behaviour relied on by the translation:
* `Session.get(Model, id)` returns the row with that primary key or `None`;
* `.one()` raises `NoResultFound` on zero rows and `MultipleResultsFound`
  on two or more;
* `Session.delete(None)` raises `UnmappedInstanceError` (the argument must
  be a mapped instance);
* attribute assignment on `None` raises `AttributeError`;
* SQLite does not enforce the declared foreign key by default, so an
  `UPDATE hero SET team_id = ?` commits even when no such team row exists.
-/

/-- A committed row of the `team` table (`class Team` in app.py). -/
structure Team where
  id : Nat
  name : String
  headquarters : String
deriving DecidableEq, Repr

/-- A committed row of the `hero` table (`class Hero` in app.py);
`age` and `team_id` are nullable columns. -/
structure Hero where
  id : Nat
  name : String
  secret_name : String
  age : Option Int
  team_id : Option Nat
deriving DecidableEq, Repr

/-- The committed database: contents of the two tables. -/
structure DB where
  heroes : List Hero
  teams : List Team
deriving DecidableEq, Repr

/-- SQL three-valued logic: a WHERE predicate evaluates to true, false or
NULL; only rows evaluating to true are kept. -/
inductive SQLBool where
  | tt
  | ff
  | null
deriving DecidableEq, Repr

/-- A WHERE clause keeps a row only when its predicate is `tt`. -/
def SQLBool.isTrue : SQLBool → Bool
  | .tt => true
  | _ => false

/-- SQL `x >= y` on a nullable operand: NULL when either side is NULL. -/
def sqlGe (x y : Option Int) : SQLBool :=
  match x, y with
  | some a, some b => if a ≥ b then .tt else .ff
  | _, _ => .null

/-- SQL `x < y` on a nullable operand. -/
def sqlLt (x y : Option Int) : SQLBool :=
  match x, y with
  | some a, some b => if a < b then .tt else .ff
  | _, _ => .null

/-- SQL `x <= y` on a nullable operand. -/
def sqlLe (x y : Option Int) : SQLBool :=
  match x, y with
  | some a, some b => if a ≤ b then .tt else .ff
  | _, _ => .null

/-- SQL `x > y` on a nullable operand. -/
def sqlGt (x y : Option Int) : SQLBool :=
  match x, y with
  | some a, some b => if a > b then .tt else .ff
  | _, _ => .null

/-- SQL `AND` in three-valued logic (two arguments to `.where(...)`). -/
def sqlAnd : SQLBool → SQLBool → SQLBool
  | .ff, _ => .ff
  | _, .ff => .ff
  | .tt, .tt => .tt
  | _, _ => .null

/-- SQL `OR` in three-valued logic (`or_` in app.py). -/
def sqlOr : SQLBool → SQLBool → SQLBool
  | .tt, _ => .tt
  | _, .tt => .tt
  | .ff, .ff => .ff
  | _, _ => .null

/-- A live session: the committed state it was opened over and the pending
state including not-yet-committed mutations. -/
structure SessionState where
  committed : DB
  pending : DB
deriving DecidableEq

/-- `with Session(engine) as session`: pending state starts at the committed
state. -/
def Session.start (db : DB) : SessionState := ⟨db, db⟩

/-- `session.commit()`: publish the pending state. -/
def Session.commit (s : SessionState) : SessionState := ⟨s.pending, s.pending⟩

/-- Exit of the `with`-block: uncommitted pending changes are discarded and
the committed state is what the database file holds afterwards. -/
def Session.stop (s : SessionState) : DB := s.committed

/-- `session.get(Hero, id)`: the row with that primary key, if any. -/
def DB.get_hero (db : DB) (id : Nat) : Option Hero :=
  db.heroes.find? (fun h => h.id == id)

/-- Errors the library raises on the paths exercised by app.py. -/
inductive Err where
  | unmappedInstance
  | attributeError
deriving DecidableEq, Repr

/-- Errors `.one()` raises. -/
inductive QueryErr where
  | noResultFound
  | multipleResultsFound
deriving DecidableEq, Repr

/-- `select_heroes` (app.py line 96): all rows of the hero table; result paired
with the database state after the routine. -/
def select_heroes (db : DB) : DB × List Hero :=
  let s := Session.start db
  (Session.stop s, s.pending.heroes)

/-- `select_hero_by_name` (app.py line 103): `.where(Hero.name == name)` then
`.one()`. -/
def select_hero_by_name (db : DB) (name : String) : DB × Except QueryErr Hero :=
  let s := Session.start db
  let res : Except QueryErr Hero :=
    match s.pending.heroes.filter (fun h => h.name == name) with
    | [] => .error .noResultFound
    | [h] => .ok h
    | _ => .error .multipleResultsFound
  (Session.stop s, res)

/-- `select_hero_by_id` (app.py line 110): `session.get(Hero, id)`. -/
def select_hero_by_id (db : DB) (id : Nat) : DB × Option Hero :=
  let s := Session.start db
  (Session.stop s, DB.get_hero s.pending id)

/-- `select_heroes_by_age_range` (app.py line 117):
`.where(Hero.age >= ge, Hero.age < lt)` — an SQL AND of the two comparisons. -/
def select_heroes_by_age_range (db : DB) (ge lt : Int) : DB × List Hero :=
  let s := Session.start db
  (Session.stop s,
    s.pending.heroes.filter
      (fun h => (sqlAnd (sqlGe h.age (some ge)) (sqlLt h.age (some lt))).isTrue))

/-- `select_heroes_by_out_age_range` (app.py line 124):
`.where(or_(Hero.age <= le, Hero.age > gt))`. -/
def select_heroes_by_out_age_range (db : DB) (le gt : Int) : DB × List Hero :=
  let s := Session.start db
  (Session.stop s,
    s.pending.heroes.filter
      (fun h => (sqlOr (sqlLe h.age (some le)) (sqlGt h.age (some gt))).isTrue))

/-- The join condition `hero.team_id = team.id`; a NULL `team_id` matches no
team row (SQL `NULL = x` is NULL, never true). -/
def joinCond (h : Hero) (t : Team) : Bool :=
  match h.team_id with
  | some tid => tid == t.id
  | none => false

/-- `select_heroes_teams` (app.py line 160): `select(Hero, Team).join(Team)` —
inner join on the foreign key. -/
def select_heroes_teams (db : DB) : DB × List (Hero × Team) :=
  let s := Session.start db
  (Session.stop s,
    s.pending.heroes.flatMap
      (fun h => (s.pending.teams.filter (joinCond h)).map (fun t => (h, t))))

/-- `select_heroes_and_teams` (app.py line 169):
`select(Hero, Team).join(Team, isouter=True)` — left outer join: a hero with
no matching team row appears once, paired with NULL. -/
def select_heroes_and_teams (db : DB) : DB × List (Hero × Option Team) :=
  let s := Session.start db
  (Session.stop s,
    s.pending.heroes.flatMap
      (fun h =>
        match s.pending.teams.filter (joinCond h) with
        | [] => [(h, none)]
        | ms => ms.map (fun t => (h, some t))))

/-- `update_hero_age` (app.py line 133): `session.get`, then `hero.age = age`
with no existence check — on `None` that attribute assignment raises
`AttributeError`; otherwise set the age, `add`, `commit`, `refresh`. -/
def update_hero_age (db : DB) (id : Nat) (age : Int) : Except Err DB :=
  let s := Session.start db
  match DB.get_hero s.pending id with
  | none => .error .attributeError
  | some _ =>
    let upd := fun (h : Hero) => if h.id == id then { h with age := some age } else h
    let s := { s with pending := { s.pending with heroes := s.pending.heroes.map upd } }
    let s := Session.commit s
    .ok (Session.stop s)

/-- `delete_hero` (app.py line 147): `session.get`, then `session.delete(hero)`
with no `None` guard — `Session.delete(None)` raises `UnmappedInstanceError`;
otherwise delete the row, `commit`, re-`get` and report absence (the returned
Bool is whether the absence message was printed). -/
def delete_hero (db : DB) (id : Nat) : Except Err (DB × Bool) :=
  let s := Session.start db
  match DB.get_hero s.pending id with
  | none => .error .unmappedInstance
  | some h0 =>
    let keep := fun (h : Hero) => !(h.id == h0.id)
    let s := { s with pending := { s.pending with heroes := s.pending.heroes.filter keep } }
    let s := Session.commit s
    let again := DB.get_hero s.pending id
    .ok (Session.stop s, again.isNone)

/-- `assign_hero_to_team` (app.py line 178): `session.get(Hero, heroid)`; if
present, `hero.team_id = teamid`, `add`, `commit`, `refresh`; if absent,
nothing happens. No check that `teamid` names an existing team. -/
def assign_hero_to_team (db : DB) (teamid heroid : Nat) : DB :=
  let s := Session.start db
  match DB.get_hero s.pending heroid with
  | none => Session.stop s
  | some _ =>
    let upd := fun (h : Hero) => if h.id == heroid then { h with team_id := some teamid } else h
    let s := { s with pending := { s.pending with heroes := s.pending.heroes.map upd } }
    let s := Session.commit s
    Session.stop s

/-- `remove_hero_from_team` (app.py line 189): like assignment but
`hero.team_id = None`. -/
def remove_hero_from_team (db : DB) (id : Nat) : DB :=
  let s := Session.start db
  match DB.get_hero s.pending id with
  | none => Session.stop s
  | some _ =>
    let upd := fun (h : Hero) => if h.id == id then { h with team_id := none } else h
    let s := { s with pending := { s.pending with heroes := s.pending.heroes.map upd } }
    let s := Session.commit s
    Session.stop s

/-- The referential invariant of §3 of the spec: a hero's `team_id`, when set,
names the id of an existing team row. -/
def DB.refInvariantB (db : DB) : Bool :=
  db.heroes.all
    (fun h =>
      match h.team_id with
      | none => true
      | some tid => db.teams.any (fun t => t.id == tid))

/-! ### Concrete fixtures

A committed state mirroring the tutorial seed (`create_heroes`): the sample
ages are exactly the spec's battery {48, 32, 35, 36, 93, null}. -/

def heroDeadpond : Hero := ⟨1, "Deadpond", "Dive Wilson", none, some 2⟩

def heroRustyMan : Hero := ⟨2, "Rusty-Man", "Tommy Sharp", some 48, some 1⟩

def heroSpiderBoy : Hero := ⟨3, "Spider-Boy", "Pedro Parqueador", none, some 1⟩

def heroBlackLion : Hero := ⟨4, "Black Lion", "Trevor Challa", some 35, some 3⟩

def heroSureE : Hero := ⟨5, "Princess Sure-E", "Sure-E", none, some 3⟩

def heroTarantula : Hero := ⟨6, "Tarantula", "Natalia Roman-on", some 32, some 1⟩

def heroDrWeird : Hero := ⟨7, "Dr. Weird", "Steve Weird", some 36, some 1⟩

def heroCaptain : Hero := ⟨8, "Captain North America", "Esteban Rogelios", some 93, some 1⟩

def teamPreventers : Team := ⟨1, "Preventers", "Sharp Tower"⟩

def teamZForce : Team := ⟨2, "Z-Force", "Sister Margarets Bar"⟩

def teamWakaland : Team := ⟨3, "Wakaland", "Wakaland Capital City"⟩

def sampleDB : DB :=
  ⟨[heroDeadpond, heroRustyMan, heroSpiderBoy, heroBlackLion, heroSureE,
    heroTarantula, heroDrWeird, heroCaptain],
   [teamPreventers, teamZForce, teamWakaland]⟩

/-! ### Three-valued WHERE clauses as plain predicates -/

theorem sql_between_isTrue (x : Option Int) (ge lt : Int) :
    (sqlAnd (sqlGe x (some ge)) (sqlLt x (some lt))).isTrue = true ↔
      ∃ a, x = some a ∧ ge ≤ a ∧ a < lt := by
  cases x with
  | none => simp [sqlGe, sqlLt, sqlAnd, SQLBool.isTrue]
  | some a =>
    by_cases h1 : a ≥ ge <;> by_cases h2 : a < lt <;>
      simp [sqlGe, sqlLt, sqlAnd, SQLBool.isTrue, h1, h2]

theorem sql_outside_isTrue (x : Option Int) (le gt : Int) :
    (sqlOr (sqlLe x (some le)) (sqlGt x (some gt))).isTrue = true ↔
      ∃ a, x = some a ∧ (a ≤ le ∨ gt < a) := by
  cases x with
  | none => simp [sqlLe, sqlGt, sqlOr, SQLBool.isTrue]
  | some a =>
    by_cases h1 : a ≤ le <;> by_cases h2 : a > gt <;>
      simp [sqlLe, sqlGt, sqlOr, SQLBool.isTrue, h1, h2]

/-- Claim C4: for all integers ge and lt and any database state, the age-range
query returns exactly the heroes with ge ≤ age < lt; null ages are excluded,
and the result is empty when no age falls in [ge, lt). -/
theorem age_range_query_exact (db : DB) (ge lt : Int) :
    (∀ h : Hero, h ∈ (select_heroes_by_age_range db ge lt).2 ↔
        h ∈ db.heroes ∧ ∃ a, h.age = some a ∧ ge ≤ a ∧ a < lt) ∧
    ((∀ h ∈ db.heroes, ∀ a : Int, h.age = some a → ¬(ge ≤ a ∧ a < lt)) →
        (select_heroes_by_age_range db ge lt).2 = []) := by
  have hmem : ∀ h : Hero, h ∈ (select_heroes_by_age_range db ge lt).2 ↔
      h ∈ db.heroes ∧ ∃ a, h.age = some a ∧ ge ≤ a ∧ a < lt := by
    intro h
    simp [select_heroes_by_age_range, Session.start, Session.stop,
      List.mem_filter, sql_between_isTrue]
  refine ⟨hmem, fun hnone => ?_⟩
  apply List.eq_nil_iff_forall_not_mem.mpr
  intro h hc
  rcases (hmem h).mp hc with ⟨hin, a, ha, hge, hlt⟩
  exact hnone h hin a ha ⟨hge, hlt⟩

/-- Witness for C4 at the seeded state: age 35 is inside [35, 45); a state
whose only age is 48 yields the empty sequence. -/
theorem age_range_query_exact_witness :
    heroBlackLion ∈ (select_heroes_by_age_range sampleDB 35 45).2 ∧
    (select_heroes_by_age_range ⟨[⟨1, "A", "a", some 48, none⟩], []⟩ 35 45).2 = [] := by
  constructor
  · exact ((age_range_query_exact sampleDB 35 45).1 heroBlackLion).mpr
      ⟨by decide, 35, rfl, by decide, by decide⟩
  · apply (age_range_query_exact ⟨[⟨1, "A", "a", some 48, none⟩], []⟩ 35 45).2
    intro h hm a ha hc
    rcases List.mem_singleton.mp hm with rfl
    obtain rfl : (48 : Int) = a := by simpa using ha
    omega

/-- Claim C5: for all integers le and gt and any database state, the
range-exclusion query returns exactly the heroes with age ≤ le or age > gt;
null ages are excluded. -/
theorem out_age_range_query_exact (db : DB) (le gt : Int) :
    ∀ h : Hero, h ∈ (select_heroes_by_out_age_range db le gt).2 ↔
      h ∈ db.heroes ∧ ∃ a, h.age = some a ∧ (a ≤ le ∨ a > gt) := by
  intro h
  simp [select_heroes_by_out_age_range, Session.start, Session.stop,
    List.mem_filter, sql_outside_isTrue]

/-- Claim C10: every pure query routine returns the database state unchanged —
the read path issues no commit, so the committed state on exit is the state
the session was opened over. -/
theorem read_routines_preserve_db (db : DB) (name : String) (id : Nat)
    (ge lt le gt : Int) :
    (select_heroes db).1 = db ∧
    (select_hero_by_name db name).1 = db ∧
    (select_hero_by_id db id).1 = db ∧
    (select_heroes_by_age_range db ge lt).1 = db ∧
    (select_heroes_by_out_age_range db le gt).1 = db ∧
    (select_heroes_teams db).1 = db ∧
    (select_heroes_and_teams db).1 = db :=
  ⟨rfl, rfl, rfl, rfl, rfl, rfl, rfl⟩

/-! ### Lookup by name and by id -/

theorem find?_id_of_mem (i : Nat) (h0 : Hero) :
    ∀ l : List Hero, (l.map Hero.id).Nodup → h0 ∈ l → h0.id = i →
      l.find? (fun h => h.id == i) = some h0 := by
  intro l
  induction l with
  | nil => intro _ hm _; cases hm
  | cons a t ih =>
    intro hnd hm hid
    rw [List.map_cons, List.nodup_cons] at hnd
    rcases List.mem_cons.mp hm with rfl | hmt
    · exact List.find?_cons_of_pos _ (by simpa using hid)
    · have hane : ¬(a.id = i) := by
        intro hc
        exact hnd.1 (by rw [hc, ← hid]; exact List.mem_map.mpr ⟨h0, hmt, rfl⟩)
      rw [List.find?_cons_of_neg _ (by simpa using hane)]
      exact ih hnd.2 hmt hid

/-- Claim C6: find-by-exact-name returns a hero exactly when precisely one row
has that name; zero matches raise the not-found error and two or more raise
the ambiguity error (`.one()`). -/
theorem name_lookup_one (db : DB) (name : String) :
    (db.heroes.countP (fun h => h.name == name) = 1 →
      ∃ h, (select_hero_by_name db name).2 = .ok h ∧ h ∈ db.heroes ∧ h.name = name) ∧
    (db.heroes.countP (fun h => h.name == name) = 0 →
      (select_hero_by_name db name).2 = .error .noResultFound) ∧
    (2 ≤ db.heroes.countP (fun h => h.name == name) →
      (select_hero_by_name db name).2 = .error .multipleResultsFound) := by
  have hcount : db.heroes.countP (fun h => h.name == name)
      = (db.heroes.filter (fun h => h.name == name)).length := by
    rw [List.countP_eq_length_filter]
  refine ⟨?_, ?_, ?_⟩
  · intro h1
    rw [hcount] at h1
    rcases hfm : db.heroes.filter (fun h => h.name == name) with _ | ⟨a, _ | ⟨b, t⟩⟩
    · rw [hfm] at h1; simp at h1
    · have ham : a ∈ db.heroes.filter (fun h => h.name == name) := by
        rw [hfm]; exact List.mem_singleton_self a
      have hma := List.mem_filter.mp ham
      exact ⟨a, by simp [select_hero_by_name, Session.start, hfm], hma.1,
        by simpa using hma.2⟩
    · rw [hfm] at h1; simp at h1
  · intro h0
    rw [hcount] at h0
    rcases hfm : db.heroes.filter (fun h => h.name == name) with _ | ⟨a, t⟩
    · simp [select_hero_by_name, Session.start, hfm]
    · rw [hfm] at h0; simp at h0
  · intro h2
    rw [hcount] at h2
    rcases hfm : db.heroes.filter (fun h => h.name == name) with _ | ⟨a, _ | ⟨b, t⟩⟩
    · rw [hfm] at h2; simp at h2
    · rw [hfm] at h2; simp at h2
    · simp [select_hero_by_name, Session.start, hfm]

/-- Witness for C6 at concrete states: a unique name is returned, an absent
name raises not-found, a duplicated name raises the ambiguity error. -/
theorem name_lookup_one_witness :
    (∃ h, (select_hero_by_name sampleDB "Deadpond").2 = .ok h ∧
        h ∈ sampleDB.heroes ∧ h.name = "Deadpond") ∧
    (select_hero_by_name sampleDB "Nobody").2 = .error .noResultFound ∧
    (select_hero_by_name ⟨[⟨1, "X", "a", none, none⟩, ⟨2, "X", "b", none, none⟩], []⟩
        "X").2 = .error .multipleResultsFound :=
  ⟨(name_lookup_one sampleDB "Deadpond").1 (by decide),
   (name_lookup_one sampleDB "Nobody").2.1 (by decide),
   (name_lookup_one ⟨[⟨1, "X", "a", none, none⟩, ⟨2, "X", "b", none, none⟩], []⟩
      "X").2.2 (by decide)⟩

/-- Claim C7: under unique primary keys, find-by-id returns the hero with that
id when it exists and the absent marker `none` when it does not; the `Option`
result never carries an error. -/
theorem get_by_id_spec (db : DB) (i : Nat)
    (hids : (db.heroes.map Hero.id).Nodup) :
    (∀ h0, h0 ∈ db.heroes → h0.id = i → (select_hero_by_id db i).2 = some h0) ∧
    ((∀ h0 ∈ db.heroes, h0.id ≠ i) → (select_hero_by_id db i).2 = none) ∧
    (∀ h0, (select_hero_by_id db i).2 = some h0 → h0 ∈ db.heroes ∧ h0.id = i) := by
  refine ⟨?_, ?_, ?_⟩
  · intro h0 hm hid
    simpa [select_hero_by_id, Session.start, DB.get_hero] using
      find?_id_of_mem i h0 db.heroes hids hm hid
  · intro habs
    simp only [select_hero_by_id, Session.start, DB.get_hero]
    rw [List.find?_eq_none]
    intro h hm
    simpa using habs h hm
  · intro h0 hfind
    simp only [select_hero_by_id, Session.start, DB.get_hero] at hfind
    refine ⟨List.mem_of_find?_eq_some hfind, ?_⟩
    have := List.find?_some hfind
    simpa using this

/-- Witness for C7 at the seeded state: id 3 resolves to Spider-Boy, id 99 to
the absent marker. -/
theorem get_by_id_spec_witness :
    (select_hero_by_id sampleDB 3).2 = some heroSpiderBoy ∧
    (select_hero_by_id sampleDB 99).2 = none :=
  ⟨(get_by_id_spec sampleDB 3 (by decide)).1 heroSpiderBoy (by decide) rfl,
   (get_by_id_spec sampleDB 99 (by decide)).2.1 (by decide)⟩

/-! ### Mutations -/

theorem find?_map_of_pres (p : Hero → Bool) (f : Hero → Hero)
    (hp : ∀ h, p (f h) = p h) :
    ∀ l : List Hero, (l.map f).find? p = (l.find? p).map f := by
  intro l
  induction l with
  | nil => rfl
  | cons a t ih =>
    rw [List.map_cons]
    by_cases hpa : p a = true
    · rw [List.find?_cons_of_pos _ (by rw [hp]; exact hpa),
        List.find?_cons_of_pos _ hpa]
      rfl
    · rw [List.find?_cons_of_neg _ (by rw [hp]; simp [hpa]),
        List.find?_cons_of_neg _ (by simp [hpa]), ih]

/-- Claim C3: update-age on an absent id is the fatal attribute-error path (no
existence check before `hero.age = age`); on a present id it sets the age,
commits, and a subsequent find-by-id sees the new age. -/
theorem update_hero_age_spec (db : DB) (i : Nat) (age : Int) :
    (DB.get_hero db i = none → update_hero_age db i age = .error .attributeError) ∧
    (∀ h0, DB.get_hero db i = some h0 →
      ∃ db', update_hero_age db i age = .ok db' ∧
        DB.get_hero db' i = some { h0 with age := some age }) := by
  constructor
  · intro hnone
    simp [update_hero_age, Session.start, hnone]
  · intro h0 hsome
    have hsome' : db.heroes.find? (fun h => h.id == i) = some h0 := hsome
    have hid : (h0.id == i) = true := by simpa using List.find?_some hsome'
    have hpres : ∀ h : Hero,
        (((fun h : Hero => if h.id == i then { h with age := some age } else h) h).id == i)
          = (h.id == i) := by
      intro h
      by_cases hc : (h.id == i) = true <;> simp [hc]
    refine ⟨⟨db.heroes.map
        (fun h => if h.id == i then { h with age := some age } else h), db.teams⟩, ?_, ?_⟩
    · simp [update_hero_age, Session.start, Session.commit, Session.stop, hsome]
    · show (db.heroes.map
          (fun h => if h.id == i then { h with age := some age } else h)).find?
            (fun h => h.id == i) = _
      rw [find?_map_of_pres _ _ hpres, hsome']
      have hideq : h0.id = i := by simpa using hid
      simp [hideq]

/-- Witness for C3: updating age of the existing id 2 to 16 is visible on
re-load; updating an absent id is the fatal path. -/
theorem update_hero_age_spec_witness :
    update_hero_age ⟨[⟨1, "A", "a", none, none⟩], []⟩ 5 16 = .error .attributeError ∧
    (∃ db', update_hero_age sampleDB 2 16 = .ok db' ∧
      DB.get_hero db' 2 = some { heroRustyMan with age := some 16 }) :=
  ⟨(update_hero_age_spec ⟨[⟨1, "A", "a", none, none⟩], []⟩ 5 16).1 (by decide),
   (update_hero_age_spec sampleDB 2 16).2 heroRustyMan (by decide)⟩

/-- Counterexample to C1: at a state with no hero of id 5, `delete_hero 5`
does not complete normally — `session.delete(None)` is the unmapped-instance
error, so the deletion of an absent id is not a tolerated no-op. -/
theorem delete_absent_not_noop :
    DB.get_hero ⟨[⟨1, "A", "a", none, none⟩], []⟩ 5 = none ∧
    delete_hero ⟨[⟨1, "A", "a", none, none⟩], []⟩ 5 = .error .unmappedInstance :=
  ⟨rfl, rfl⟩

/-- Claim C1 (amended): delete-by-id on an absent id is a fatal error (the
routine passes the absent marker to the storage delete, which rejects it); on
a present id it removes the row, leaves teams untouched, and the re-load
confirms absence, which the routine reports. -/
theorem delete_hero_spec (db : DB) (i : Nat) :
    (DB.get_hero db i = none → delete_hero db i = .error .unmappedInstance) ∧
    (∀ h0, DB.get_hero db i = some h0 →
      ∃ db', delete_hero db i = .ok (db', true) ∧ DB.get_hero db' i = none ∧
        db'.teams = db.teams) := by
  constructor
  · intro hnone
    simp [delete_hero, Session.start, hnone]
  · intro h0 hsome
    have hsome' : db.heroes.find? (fun h => h.id == i) = some h0 := hsome
    have hid : h0.id = i := by simpa using List.find?_some hsome'
    have hagain :
        DB.get_hero ⟨db.heroes.filter (fun h => !(h.id == h0.id)), db.teams⟩ i = none := by
      show (db.heroes.filter (fun h => !(h.id == h0.id))).find? (fun h => h.id == i) = none
      rw [List.find?_eq_none]
      intro h hm
      have hne := (List.mem_filter.mp hm).2
      simp only [Bool.not_eq_eq_eq_not, Bool.not_true, beq_eq_false_iff_ne] at hne
      simp only [beq_iff_eq]
      rw [← hid]
      exact hne
    refine ⟨⟨db.heroes.filter (fun h => !(h.id == h0.id)), db.teams⟩, ?_, hagain, rfl⟩
    simp only [delete_hero, Session.start, Session.commit, Session.stop, hsome]
    rw [show DB.get_hero ⟨db.heroes.filter (fun h => !(h.id == h0.id)), db.teams⟩ i
        = none from hagain]
    rfl

/-- Witness for C1 (amended): deleting the existing id 5 succeeds, the re-load
returns the absent marker and absence is reported. -/
theorem delete_hero_spec_witness :
    ∃ db', delete_hero sampleDB 5 = .ok (db', true) ∧ DB.get_hero db' 5 = none ∧
      db'.teams = sampleDB.teams :=
  (delete_hero_spec sampleDB 5).2 heroSureE (by decide)

/-- Claim C9: for an existing hero, assign-team followed by remove-team
restores the no-team state — the reloaded hero has an absent team reference. -/
theorem assign_then_remove_round_trip (db : DB) (teamid heroid : Nat) (h0 : Hero)
    (hsome : DB.get_hero db heroid = some h0) :
    DB.get_hero (remove_hero_from_team (assign_hero_to_team db teamid heroid) heroid)
      heroid = some { h0 with team_id := none } := by
  have hsome' : db.heroes.find? (fun h => h.id == heroid) = some h0 := hsome
  have hid : (h0.id == heroid) = true := by simpa using List.find?_some hsome'
  have hpres1 : ∀ h : Hero,
      (((fun h : Hero => if h.id == heroid then { h with team_id := some teamid } else h) h).id
        == heroid) = (h.id == heroid) := by
    intro h
    by_cases hc : (h.id == heroid) = true <;> simp [hc]
  have hpres2 : ∀ h : Hero,
      (((fun h : Hero => if h.id == heroid then { h with team_id := none } else h) h).id
        == heroid) = (h.id == heroid) := by
    intro h
    by_cases hc : (h.id == heroid) = true <;> simp [hc]
  have hassign : assign_hero_to_team db teamid heroid
      = ⟨db.heroes.map
          (fun h => if h.id == heroid then { h with team_id := some teamid } else h),
        db.teams⟩ := by
    simp [assign_hero_to_team, Session.start, Session.commit, Session.stop, hsome]
  have hget1 : DB.get_hero (assign_hero_to_team db teamid heroid) heroid
      = some { h0 with team_id := some teamid } := by
    rw [hassign]
    show (db.heroes.map
        (fun h => if h.id == heroid then { h with team_id := some teamid } else h)).find?
          (fun h => h.id == heroid) = _
    rw [find?_map_of_pres _ _ hpres1, hsome']
    have hideq : h0.id = heroid := by simpa using hid
    simp [hideq]
  have hremove : remove_hero_from_team (assign_hero_to_team db teamid heroid) heroid
      = ⟨(assign_hero_to_team db teamid heroid).heroes.map
          (fun h => if h.id == heroid then { h with team_id := none } else h),
        (assign_hero_to_team db teamid heroid).teams⟩ := by
    simp [remove_hero_from_team, Session.start, Session.commit, Session.stop, hget1]
  rw [hremove]
  show ((assign_hero_to_team db teamid heroid).heroes.map
      (fun h => if h.id == heroid then { h with team_id := none } else h)).find?
        (fun h => h.id == heroid) = _
  rw [find?_map_of_pres _ _ hpres2]
  rw [show (assign_hero_to_team db teamid heroid).heroes.find? (fun h => h.id == heroid)
      = some { h0 with team_id := some teamid } from hget1]
  have hideq : h0.id = heroid := by simpa using hid
  simp [hideq]

/-- Witness for C9 at the seeded state: assign Spider-Boy (id 3) to team 1 and
remove again; the reload shows an absent team reference. -/
theorem assign_then_remove_round_trip_witness :
    DB.get_hero (remove_hero_from_team (assign_hero_to_team sampleDB 1 3) 3) 3
      = some { heroSpiderBoy with team_id := none } :=
  assign_then_remove_round_trip sampleDB 1 3 heroSpiderBoy (by decide)

/-- Counterexample to C2: the routines do not all preserve the referential
invariant — assigning a nonexistent team id commits a dangling reference (the
routine performs no team-existence check and the storage configuration does
not enforce the declared foreign key). -/
theorem assign_breaks_ref_invariant :
    DB.refInvariantB ⟨[⟨1, "B", "b", none, none⟩], []⟩ = true ∧
    DB.refInvariantB (assign_hero_to_team ⟨[⟨1, "B", "b", none, none⟩], []⟩ 999 1)
      = false := ⟨rfl, rfl⟩

/-- Claim C2 (amended): assign-team preserves the referential invariant
provided the assigned team id names an existing team row; remove-team always
preserves it and detaches without deleting either record (teams unchanged,
hero count unchanged); assign likewise deletes nothing. -/
theorem team_ops_preserve_invariant (db : DB) (teamid heroid : Nat) :
    (DB.refInvariantB db = true → db.teams.any (fun t => t.id == teamid) = true →
      DB.refInvariantB (assign_hero_to_team db teamid heroid) = true) ∧
    (DB.refInvariantB db = true →
      DB.refInvariantB (remove_hero_from_team db heroid) = true) ∧
    (remove_hero_from_team db heroid).teams = db.teams ∧
    (remove_hero_from_team db heroid).heroes.length = db.heroes.length ∧
    (assign_hero_to_team db teamid heroid).teams = db.teams ∧
    (assign_hero_to_team db teamid heroid).heroes.length = db.heroes.length := by
  cases hg : DB.get_hero db heroid with
  | none =>
    have ha : assign_hero_to_team db teamid heroid = db := by
      simp [assign_hero_to_team, Session.start, Session.stop, hg]
    have hr : remove_hero_from_team db heroid = db := by
      simp [remove_hero_from_team, Session.start, Session.stop, hg]
    rw [ha, hr]
    exact ⟨fun h _ => h, fun h => h, rfl, rfl, rfl, rfl⟩
  | some h0 =>
    have ha : assign_hero_to_team db teamid heroid
        = ⟨db.heroes.map
            (fun h => if h.id == heroid then { h with team_id := some teamid } else h),
          db.teams⟩ := by
      simp [assign_hero_to_team, Session.start, Session.commit, Session.stop, hg]
    have hr : remove_hero_from_team db heroid
        = ⟨db.heroes.map
            (fun h => if h.id == heroid then { h with team_id := none } else h),
          db.teams⟩ := by
      simp [remove_hero_from_team, Session.start, Session.commit, Session.stop, hg]
    rw [ha, hr]
    refine ⟨?_, ?_, rfl, by simp, rfl, by simp⟩
    · intro hinv hteam
      rw [DB.refInvariantB, List.all_eq_true] at hinv ⊢
      intro h hm
      rcases List.mem_map.mp hm with ⟨h1, hm1, rfl⟩
      by_cases hc : (h1.id == heroid) = true
      · simpa [hc] using hteam
      · simpa [hc] using hinv h1 hm1
    · intro hinv
      rw [DB.refInvariantB, List.all_eq_true] at hinv ⊢
      intro h hm
      rcases List.mem_map.mp hm with ⟨h1, hm1, rfl⟩
      by_cases hc : (h1.id == heroid) = true
      · simp [hc]
      · simpa [hc] using hinv h1 hm1

/-- Witness for C2 (amended) at the seeded state: assigning hero 3 to the
existing team 1 and removing hero 1 from its team both preserve the
invariant. -/
theorem team_ops_preserve_invariant_witness :
    DB.refInvariantB (assign_hero_to_team sampleDB 1 3) = true ∧
    DB.refInvariantB (remove_hero_from_team sampleDB 1) = true :=
  ⟨(team_ops_preserve_invariant sampleDB 1 3).1 (by decide) (by decide),
   (team_ops_preserve_invariant sampleDB 1 1).2.1 (by decide)⟩

/-! ### Joins -/

theorem joinCond_iff (h : Hero) (t : Team) :
    joinCond h t = true ↔ h.team_id = some t.id := by
  cases hx : h.team_id <;> simp [joinCond, hx]

theorem countP_joinCond_le_one (h : Hero) :
    ∀ l : List Team, (l.map Team.id).Nodup → l.countP (joinCond h) ≤ 1 := by
  intro l
  induction l with
  | nil => simp
  | cons a t ih =>
    intro hnd
    rw [List.map_cons, List.nodup_cons] at hnd
    rw [List.countP_cons]
    by_cases hc : joinCond h a = true
    · have hzero : t.countP (joinCond h) = 0 := by
        rw [List.countP_eq_zero]
        intro b hb hcb
        have h1 := (joinCond_iff h a).mp hc
        have h2 := (joinCond_iff h b).mp hcb
        apply hnd.1
        have hab : a.id = b.id := by rw [h1] at h2; exact Option.some.inj h2
        rw [hab]
        exact List.mem_map.mpr ⟨b, hb, rfl⟩
      rw [hzero]
      simp [hc]
    · have := ih hnd.2
      simp only [hc]
      simpa using this

theorem filter_eq_find?_toList (p : Team → Bool) :
    ∀ l : List Team, l.countP p ≤ 1 → l.filter p = (l.find? p).toList := by
  intro l
  induction l with
  | nil => intro _; rfl
  | cons a t ih =>
    intro hle
    rw [List.countP_cons] at hle
    by_cases hc : p a = true
    · rw [List.filter_cons_of_pos hc, List.find?_cons_of_pos _ hc]
      have hzero : t.countP p = 0 := by
        have : t.countP p + 1 ≤ 1 := by simpa [hc] using hle
        omega
      have hnil : t.filter p = [] := by
        rw [List.filter_eq_nil_iff]
        intro b hb
        have := List.countP_eq_zero.mp hzero b hb
        simpa using this
      rw [hnil]
      rfl
    · rw [List.filter_cons_of_neg (by simp [hc]), List.find?_cons_of_neg _ (by simp [hc])]
      exact ih (by simpa [hc] using hle)

/-- Claim C8: the inner join yields (hero, team) pairs exactly for heroes whose
team reference resolves to an existing team — NULL references match no row —
while, under unique team ids, the outer join yields one pair per hero, a hero
with no matching team being paired with the absent marker. -/
theorem join_queries_spec (db : DB) :
    (∀ (h : Hero) (t : Team), (h, t) ∈ (select_heroes_teams db).2 ↔
        h ∈ db.heroes ∧ t ∈ db.teams ∧ h.team_id = some t.id) ∧
    ((db.teams.map Team.id).Nodup →
      (select_heroes_and_teams db).2
        = db.heroes.map (fun h => (h, db.teams.find? (joinCond h)))) := by
  constructor
  · intro h t
    simp only [select_heroes_teams, Session.start, List.mem_flatMap, List.mem_map,
      List.mem_filter, Prod.mk.injEq]
    constructor
    · rintro ⟨h1, hm1, t1, ⟨hmt1, hcond⟩, rfl, rfl⟩
      exact ⟨hm1, hmt1, (joinCond_iff h1 t1).mp hcond⟩
    · rintro ⟨hm, hmt, hcond⟩
      exact ⟨h, hm, t, ⟨hmt, (joinCond_iff h t).mpr hcond⟩, rfl, rfl⟩
  · intro hnd
    have hbody : ∀ h : Hero,
        (match db.teams.filter (joinCond h) with
          | [] => [(h, (none : Option Team))]
          | ms => ms.map (fun t => (h, some t)))
        = [(h, db.teams.find? (joinCond h))] := by
      intro h
      have hle := countP_joinCond_le_one h db.teams hnd
      have hfe := filter_eq_find?_toList (joinCond h) db.teams hle
      cases hf : db.teams.find? (joinCond h) with
      | none => rw [hfe, hf]; rfl
      | some t => rw [hfe, hf]; rfl
    show db.heroes.flatMap _ = _
    have hflat : ∀ hs : List Hero,
        hs.flatMap (fun h =>
          match db.teams.filter (joinCond h) with
          | [] => [(h, (none : Option Team))]
          | ms => ms.map (fun t => (h, some t)))
        = hs.map (fun h => (h, db.teams.find? (joinCond h))) := by
      intro hs
      induction hs with
      | nil => rfl
      | cons a t ih => rw [List.flatMap_cons, ih, hbody a, List.map_cons]; rfl
    exact hflat db.heroes

/-- Witness for C8 at the seeded state: Rusty-Man joins with the Preventers in
the inner join; the outer join lists every hero once with its resolved
team-or-absent. -/
theorem join_queries_spec_witness :
    (heroRustyMan, teamPreventers) ∈ (select_heroes_teams sampleDB).2 ∧
    (select_heroes_and_teams sampleDB).2
      = sampleDB.heroes.map (fun h => (h, sampleDB.teams.find? (joinCond h))) :=
  ⟨((join_queries_spec sampleDB).1 heroRustyMan teamPreventers).mpr
      ⟨by decide, by decide, rfl⟩,
   (join_queries_spec sampleDB).2 (by decide)⟩
